import Mathlib

/-!
Verification of the hybrid retrieval and ranking engine of
`agent-memory-mcp` (`src/memory-store.ts`), as a shallow embedding.

Modelling conventions, mirroring the TypeScript source:
- JavaScript numbers (embedding coordinates, scores, distances) are
  modelled as rationals `ℚ`, except the temporal-decay factor, whose
  defining formula `0.5 ^ (ageDays / halfLifeDays)` needs real
  exponentiation and is modelled over `ℝ`.
- The LanceDB table is a list of rows; `none` means no table exists.
- External collaborators (the embedding provider, the LanceDB query
  engine, `crypto.randomUUID`, `Date.now`) are oracles passed in an
  `Env`: pure functions chosen arbitrarily, so every theorem holds for
  every behaviour of the collaborators. Calls that the source wraps in
  `try`/`catch` (the full-text query, the combined hybrid query) are
  oracles returning `Except Unit (List Row)`.
- `tags` is stored as a JSON string in the source (`JSON.stringify` on
  write, `JSON.parse` on read); since JSON round-trips string arrays
  exactly, the serialized field is modelled as `List String` and the
  round-trip as the identity.
- Timestamps are ISO-8601 strings, kept as `String`.
-/

namespace AgentMemory

-- ── Data model (src/types.ts and the MemoryRow of src/memory-store.ts) ──

/-- A stored memory, as returned to callers (`Memory` in types.ts). -/
structure Memory where
  id : String
  content : String
  category : String
  tags : List String
  createdAt : String
  updatedAt : String
deriving DecidableEq

/-- A physical LanceDB row (`MemoryRow`), together with the three optional
score fields a query result row may carry: `relevanceScore` models
`_relevance_score` (RRF reranker), `distance` models `_distance`
(cosine vector search) and `ftsScore` models `_score` (BM25).
Stored rows have all three set to `none`. -/
structure Row where
  id : String
  content : String
  category : String
  tags : List String
  created_at : String
  updated_at : String
  vector : List ℚ
  relevanceScore : Option ℚ := none
  distance : Option ℚ := none
  ftsScore : Option ℚ := none
deriving DecidableEq

/-- A search hit: `SearchResult` in types.ts. -/
structure SearchResult where
  memory : Memory
  score : ℚ
deriving DecidableEq

/-- `MemoryStats` in types.ts; `byCategory` (a JS object used as a map)
is modelled as an association list. -/
structure MemoryStats where
  totalMemories : ℕ
  byCategory : List (String × ℕ)
  oldestMemory : Option String
  newestMemory : Option String
deriving DecidableEq

/-- `StoreRequest` in types.ts. -/
structure StoreRequest where
  content : String
  category : String
  tags : List String
deriving DecidableEq

/-- `UpdateRequest` in types.ts: all fields optional. -/
structure UpdateRequest where
  content : Option String := none
  category : Option String := none
  tags : Option (List String) := none
deriving DecidableEq

/-- `SearchFilters` in types.ts. -/
structure SearchFilters where
  category : Option String := none
  tags : Option (List String) := none
  after : Option String := none
  before : Option String := none
  limit : Option ℕ := none
deriving DecidableEq

/-- `SearchMode` in types.ts. -/
inductive SearchMode where
  | hybrid
  | keyword
  | semantic
deriving DecidableEq

/-- The errors `LanceMemoryStore` throws: `'No memories stored yet'`
from `update`/`delete` before any table exists, and
`'Memory <id> not found'` from `update`/`findRelated`. -/
inductive StoreError where
  | noMemoriesYet
  | notFound (id : String)
deriving DecidableEq

/-- The mutable state of a `LanceMemoryStore` instance: `table` is the
LanceDB table (`none` = not created yet), plus the `ftsIndexCreated`
flag and whether the RRF reranker handle is set (it is `null` until
`initialize()` ran). -/
structure StoreState where
  table : Option (List Row)
  ftsIndexCreated : Bool
  rerankerSet : Bool
deriving DecidableEq

/-- External collaborators and ambient effects, as oracles.
`vecQuery` models `table.query().nearestTo(v).distanceType('cosine')
.limit(n).where(w).toArray()`; `hybridQuery` models the combined
vector+full-text+rerank query and `ftsQuery` the `table.search(q,'fts')`
query, both of which the source wraps in `try`/`catch`, hence `Except`.
`uuid` is the `crypto.randomUUID` supply, indexed by call number.
`halfLife` is the process-wide `DECAY_HALF_LIFE_DAYS` and `decay`
abstracts `computeDecayFactor(updatedAt, halfLife)` at the current
clock (its real-valued formula is verified separately as
`computeDecayFactor`). `ftsIndexOk` tells whether
`table.createIndex('content', …)` succeeds. -/
structure Env where
  embed : String → List ℚ
  embedBatch : List String → List (List ℚ)
  uuid : ℕ → String
  vecQuery : List ℚ → ℕ → Option String → List Row
  hybridQuery : List ℚ → String → ℕ → Option String → Except Unit (List Row)
  ftsQuery : String → ℕ → Option String → Except Unit (List Row)
  ftsIndexOk : Bool
  halfLife : ℚ
  decay : String → ℚ

-- ── Pure functions of memory-store.ts ──

/-- `toRow(request, vector, timestamp)`; the fresh id from
`crypto.randomUUID()` is passed in explicitly. -/
def toRow (request : StoreRequest) (vector : List ℚ) (freshId timestamp : String) : Row :=
  { id := freshId
    content := request.content
    category := request.category
    tags := request.tags
    created_at := timestamp
    updated_at := timestamp
    vector := vector }

/-- `rowToMemory(row)`. -/
def rowToMemory (row : Row) : Memory :=
  { id := row.id
    content := row.content
    category := row.category
    tags := row.tags
    createdAt := row.created_at
    updatedAt := row.updated_at }

/-- `sanitise(value)`: double every single quote before splicing a string
into an engine predicate. -/
def sanitise (value : String) : String :=
  value.replace "'" "''"

/-- The predicate string built by `applyWhereClause`: the `category`,
`after` and `before` clauses joined with AND; `none` when no clause
applies (the source then leaves the query unfiltered). -/
def buildWhereClause (filters : SearchFilters) : Option String :=
  let clauses :=
    (match filters.category with
      | some c => ["category = '" ++ sanitise c ++ "'"]
      | none => []) ++
    (match filters.after with
      | some a => ["created_at >= '" ++ sanitise a ++ "'"]
      | none => []) ++
    (match filters.before with
      | some b => ["created_at <= '" ++ sanitise b ++ "'"]
      | none => [])
  if clauses.isEmpty then none
  else some (String.intercalate " AND " clauses)

/-- `postFilter(rows, filters)`: in-memory match-any tag filter
(`filters.tags!.some(t => tags.includes(t))`). -/
def postFilter (rows : List Row) (filters : SearchFilters) : List Row :=
  match filters.tags with
  | none => rows
  | some ts =>
    if ts.isEmpty then rows
    else rows.filter (fun row => ts.any (fun t => row.tags.contains t))

/-- The tags exempting a memory from decay (`EVERGREEN_TAGS`). -/
def EVERGREEN_TAGS : List String := ["evergreen", "never-forget"]

/-- `isEvergreen(row)`: some tag of the row is in `EVERGREEN_TAGS`
(the source's `JSON.parse` with its `catch` never fires on round-tripped
tags, see the header note). -/
def isEvergreen (row : Row) : Bool :=
  row.tags.any (fun t => EVERGREEN_TAGS.contains t)

/-- The raw-score interpretation at the start of `resultToSearchResult`:
`_relevance_score` if present, else `1 / (1 + _distance)` if a distance
is present, else `_score` as-is, else `0`. -/
def rawScore (row : Row) : ℚ :=
  match row.relevanceScore with
  | some r => r
  | none =>
    match row.distance with
    | some d => 1 / (1 + d)
    | none =>
      match row.ftsScore with
      | some f => f
      | none => 0

/-- `resultToSearchResult(row)` with the ambient decay configuration made
explicit: apply temporal decay to the raw score unless decay is disabled
(`DECAY_HALF_LIFE_DAYS > 0` fails) or the memory is evergreen. -/
def resultToSearchResult (halfLife : ℚ) (decay : String → ℚ) (row : Row) : SearchResult :=
  let score := rawScore row
  let score := if 0 < halfLife ∧ isEvergreen row = false
    then score * decay row.updated_at else score
  { memory := rowToMemory row, score := score }

/-- Stable insertion into a list sorted by the boolean preorder `le`;
building block for the model of JavaScript `Array.prototype.sort`. -/
def insertBy (le : α → α → Bool) (a : α) : List α → List α
  | [] => [a]
  | b :: bs => if le a b then a :: b :: bs else b :: insertBy le a bs

/-- Stable sort by `le` (insertion sort); models the source's
`.sort(comparator)` calls. -/
def sortBy (le : α → α → Bool) : List α → List α
  | [] => []
  | a :: as => insertBy le a (sortBy le as)

/-- `toResults(rows, limit)`: map rows through `resultToSearchResult`,
sort by decayed score descending and trim to `limit`. -/
def toResults (halfLife : ℚ) (decay : String → ℚ)
    (rows : List Row) (limit : ℕ) : List SearchResult :=
  (sortBy (fun a b => b.score ≤ a.score)
    (rows.map (resultToSearchResult halfLife decay))).take limit

-- ── Table lifecycle and CRUD (class LanceMemoryStore) ──

/-- `tryCreateFtsIndex()`: best-effort creation of the full-text index
over `content`; failure (oracle `ftsIndexOk = false`) is swallowed. -/
def tryCreateFtsIndex (env : Env) (s : StoreState) : StoreState :=
  if s.ftsIndexCreated || s.table.isNone then s
  else if env.ftsIndexOk then { s with ftsIndexCreated := true } else s

/-- `ensureTable(seedRow)`: create the table from the seed row when none
exists (returning `true`: the caller must not insert the seed again),
otherwise leave the state alone and return `false`. -/
def ensureTable (env : Env) (seedRow : Row) (s : StoreState) : Bool × StoreState :=
  match s.table with
  | some _ => (false, s)
  | none =>
    (true, tryCreateFtsIndex env { s with table := some [seedRow] })

/-- `table.add(rows)`: append rows to the table. -/
def addRows (s : StoreState) (rows : List Row) : StoreState :=
  { s with table := some (s.table.getD [] ++ rows) }

/-- `buildRow(request)`: embed the content and build a row; the fresh id
and the `new Date().toISOString()` timestamp are passed in. -/
def buildRow (env : Env) (request : StoreRequest) (freshId now : String) : Row :=
  toRow request (env.embed request.content) freshId now

/-- `store(request)`: build the row, run it through `ensureTable`, and
add it only when the table was not just seeded with it. -/
def store (env : Env) (request : StoreRequest) (freshId now : String)
    (s : StoreState) : Memory × StoreState :=
  let row := buildRow env request freshId now
  let (seeded, s1) := ensureTable env row s
  let s2 := if seeded then s1 else addRows s1 [row]
  (rowToMemory row, s2)

/-- The rows `storeBatch` builds: one batch embedding call, one shared
timestamp, one fresh id per request (`vectors[i]` is modelled with a
`[]` default, which the row count never depends on). -/
def batchRows (env : Env) (requests : List StoreRequest) (now : String) : List Row :=
  let vectors := env.embedBatch (requests.map StoreRequest.content)
  requests.enum.map (fun p => toRow p.2 (vectors.getD p.1 []) (env.uuid p.1) now)

/-- `storeBatch(requests)`: empty batches return immediately; otherwise
seed the table with the first row if needed and bulk-add the remainder
(or all rows when the table already existed). The inner `[]` branch is
unreachable: `batchRows` of a nonempty request list is nonempty. -/
def storeBatch (env : Env) (requests : List StoreRequest) (now : String)
    (s : StoreState) : List Memory × StoreState :=
  match requests with
  | [] => ([], s)
  | _ :: _ =>
    match batchRows env requests now with
    | [] => ([], s)
    | r0 :: rest =>
      let es := ensureTable env r0 s
      let remaining := if es.1 then rest else r0 :: rest
      let s2 := if remaining.isEmpty then es.2 else addRows es.2 remaining
      ((batchRows env requests now).map rowToMemory, s2)

/-- `fetchById(id)`: single-row lookup by the id-equality predicate;
`none` when absent or when no table exists. -/
def fetchById (s : StoreState) (id : String) : Option Row :=
  (s.table.getD []).find? (fun r => r.id == id)

/-- JavaScript truthiness of the optional `updates.content` as the source
tests it with `updates.content ? … : …`: `undefined` and the empty
string are both falsy. -/
def contentTruthy : Option String → Bool
  | none => false
  | some c => !c.isEmpty

/-- `update(id, updates)`: throw before any table exists; fetch the row
(NotFound when absent); merge the provided fields; re-embed only when
`updates.content` is truthy, else reuse the stored vector; keep
`created_at`, stamp `updated_at = now`; delete the old row by id and
insert the replacement. -/
def update (env : Env) (id : String) (updates : UpdateRequest) (now : String)
    (s : StoreState) : Except StoreError (Memory × StoreState) :=
  match s.table with
  | none => .error .noMemoriesYet
  | some rows =>
    match rows.find? (fun r => r.id == id) with
    | none => .error (.notFound id)
    | some existing =>
      let content := updates.content.getD existing.content
      let category := updates.category.getD existing.category
      let tags := updates.tags.getD existing.tags
      let vector := if contentTruthy updates.content
        then env.embed content else existing.vector
      let updatedRow : Row :=
        { id := id
          content := content
          category := category
          tags := tags
          created_at := existing.created_at
          updated_at := now
          vector := vector }
      let rows1 := rows.filter (fun r => !(r.id == id))
      .ok (rowToMemory updatedRow, { s with table := some (rows1 ++ [updatedRow]) })

/-- `delete(id)`: throw before any table exists; otherwise delete by the
id-equality predicate (a silent no-op when the id is absent). -/
def deleteById (id : String) (s : StoreState) : Except StoreError StoreState :=
  match s.table with
  | none => .error .noMemoriesYet
  | some rows =>
    .ok { s with table := some (rows.filter (fun r => !(r.id == id))) }

/-- `stats()`: zeroed result without a table; otherwise a full scan with
a category histogram and the min/max `createdAt` read off a sort. -/
def stats (s : StoreState) : MemoryStats :=
  match s.table with
  | none =>
    { totalMemories := 0, byCategory := [], oldestMemory := none, newestMemory := none }
  | some rows =>
    let memories := rows.map rowToMemory
    let byCategory := memories.foldl
      (fun acc m =>
        match acc.find? (fun p => p.1 == m.category) with
        | some _ => acc.map (fun p => if p.1 == m.category then (p.1, p.2 + 1) else p)
        | none => acc ++ [(m.category, 1)])
      []
    let sorted := sortBy (fun a b => (compare a.createdAt b.createdAt).isLE) memories
    { totalMemories := memories.length
      byCategory := byCategory
      oldestMemory := sorted.head?.map (fun m => m.createdAt)
      newestMemory := sorted.getLast?.map (fun m => m.createdAt) }

/-- `listRecent(limit, category?)`: full (optionally category-filtered)
scan, newest first, truncated to `limit`; empty without a table. -/
def listRecent (limit : ℕ) (category : Option String) (s : StoreState) : List Memory :=
  match s.table with
  | none => []
  | some rows =>
    let rows1 : List Row := match category with
      | some c => rows.filter (fun r => r.category == c)
      | none => rows
    (sortBy (fun a b => (compare b.createdAt a.createdAt).isLE)
      (rows1.map rowToMemory)).take limit

-- ── Search strategies ──

/-- `semanticSearch(query, filters, limit)`: embed the query, run the
cosine nearest-neighbour query over-fetching `3 × limit` with the native
predicate pushed down, tag post-filter, then score/decay/sort/trim. -/
def semanticSearch (env : Env) (query : String) (filters : SearchFilters)
    (limit : ℕ) : List SearchResult :=
  let vector := env.embed query
  let rows := env.vecQuery vector (limit * 3) (buildWhereClause filters)
  toResults env.halfLife env.decay (postFilter rows filters) limit

/-- `keywordSearch(query, filters, limit)`: full-text query in a
`try`/`catch`; any failure (index absent, stale, …) yields `[]`. -/
def keywordSearch (env : Env) (query : String) (filters : SearchFilters)
    (limit : ℕ) : List SearchResult :=
  match env.ftsQuery query (limit * 3) (buildWhereClause filters) with
  | .error _ => []
  | .ok rows => toResults env.halfLife env.decay (postFilter rows filters) limit

/-- `hybridSearch(query, filters, limit)`: degrade to semantic-only when
the FTS index or the reranker is unavailable; otherwise run the combined
vector+full-text+rerank query, falling back to semantic on any failure. -/
def hybridSearch (env : Env) (s : StoreState) (query : String)
    (filters : SearchFilters) (limit : ℕ) : List SearchResult :=
  if !s.ftsIndexCreated || !s.rerankerSet then
    semanticSearch env query filters limit
  else
    match env.hybridQuery (env.embed query) query (limit * 3)
        (buildWhereClause filters) with
    | .error _ => semanticSearch env query filters limit
    | .ok rows => toResults env.halfLife env.decay (postFilter rows filters) limit

/-- `search(query, mode, filters)`: empty without a table; otherwise
dispatch on the mode with `limit = filters.limit ?? 10`. -/
def search (env : Env) (s : StoreState) (query : String) (mode : SearchMode)
    (filters : SearchFilters) : List SearchResult :=
  match s.table with
  | none => []
  | some _ =>
    let limit := filters.limit.getD 10
    match mode with
    | .semantic => semanticSearch env query filters limit
    | .keyword => keywordSearch env query filters limit
    | .hybrid => hybridSearch env s query filters limit

/-- `findRelated(memoryId, limit)`: empty without a table; NotFound when
the id does not resolve; otherwise nearest-neighbour search for
`limit + 1`, drop the target id, and score/decay/trim like semantic. -/
def findRelated (env : Env) (memoryId : String) (limit : ℕ)
    (s : StoreState) : Except StoreError (List SearchResult) :=
  match s.table with
  | none => .ok []
  | some rows =>
    match rows.find? (fun r => r.id == memoryId) with
    | none => .error (.notFound memoryId)
    | some original =>
      let results := env.vecQuery original.vector (limit + 1) none
      .ok (toResults env.halfLife env.decay
        (results.filter (fun r => !(r.id == memoryId))) limit)

-- ── Temporal decay over the reals (computeDecayFactor) ──

/-- Milliseconds per day (`MS_PER_DAY`). -/
def MS_PER_DAY : ℝ := 86400000

/-- `computeDecayFactor(updatedAt, halfLifeDays)` with `Date.now()` and
the parse of the ISO timestamp made explicit as real-valued epoch
milliseconds: `1` when decay is disabled, else
`0.5 ^ (max 0 ((now − updatedAt) / MS_PER_DAY) / halfLifeDays)`. -/
noncomputable def computeDecayFactor (nowMs updatedAtMs halfLifeDays : ℝ) : ℝ :=
  if halfLifeDays ≤ 0 then 1
  else
    let ageMs := nowMs - updatedAtMs
    let ageDays := max 0 (ageMs / MS_PER_DAY)
    ((1 : ℝ) / 2) ^ (ageDays / halfLifeDays)

-- ── Helper lemmas ──

theorem length_insertBy (le : α → α → Bool) (a : α) (l : List α) :
    (insertBy le a l).length = l.length + 1 := by
  induction l with
  | nil => rfl
  | cons b bs ih =>
    unfold insertBy
    by_cases h : le a b
    · simp [h]
    · simp [h, ih]

theorem mem_insertBy (le : α → α → Bool) (a x : α) (l : List α) :
    x ∈ insertBy le a l ↔ x = a ∨ x ∈ l := by
  induction l with
  | nil => simp [insertBy]
  | cons b bs ih =>
    unfold insertBy
    by_cases h : le a b
    · simp [h]
    · simp [h, ih]
      tauto

theorem length_sortBy (le : α → α → Bool) (l : List α) :
    (sortBy le l).length = l.length := by
  induction l with
  | nil => rfl
  | cons a as ih => simp [sortBy, length_insertBy, ih]

theorem mem_sortBy (le : α → α → Bool) (x : α) (l : List α) :
    x ∈ sortBy le l ↔ x ∈ l := by
  induction l with
  | nil => simp [sortBy]
  | cons a as ih =>
    simp [sortBy, mem_insertBy, ih]

theorem length_toResults_le (halfLife : ℚ) (decay : String → ℚ)
    (rows : List Row) (limit : ℕ) :
    (toResults halfLife decay rows limit).length ≤ limit := by
  simp [toResults]

theorem mem_toResults (halfLife : ℚ) (decay : String → ℚ)
    (rows : List Row) (limit : ℕ) (r : SearchResult)
    (h : r ∈ toResults halfLife decay rows limit) :
    ∃ row ∈ rows, r = resultToSearchResult halfLife decay row := by
  have h1 : r ∈ sortBy (fun a b => decide (b.score ≤ a.score))
      (rows.map (resultToSearchResult halfLife decay)) :=
    List.mem_of_mem_take h
  rw [mem_sortBy] at h1
  obtain ⟨row, hrow, hr⟩ := List.mem_map.mp h1
  exact ⟨row, hrow, hr.symm⟩

/-- Number of rows in the table (`0` when no table exists). -/
def rowCount (s : StoreState) : ℕ :=
  (s.table.getD []).length

theorem stats_totalMemories (s : StoreState) :
    (stats s).totalMemories = rowCount s := by
  unfold stats rowCount
  cases s.table with
  | none => rfl
  | some rows => simp

theorem table_tryCreateFtsIndex (env : Env) (s : StoreState) :
    (tryCreateFtsIndex env s).table = s.table := by
  unfold tryCreateFtsIndex
  by_cases h1 : s.ftsIndexCreated || s.table.isNone
  · simp [h1]
  · by_cases h2 : env.ftsIndexOk <;> simp [h1, h2]

theorem rowCount_store (env : Env) (request : StoreRequest)
    (freshId now : String) (s : StoreState) :
    rowCount (store env request freshId now s).2 = rowCount s + 1 := by
  cases htab : s.table with
  | none =>
    simp [store, ensureTable, addRows, rowCount, htab, table_tryCreateFtsIndex]
  | some rows =>
    simp [store, ensureTable, addRows, rowCount, htab]

theorem batchRows_length (env : Env) (requests : List StoreRequest) (now : String) :
    (batchRows env requests now).length = requests.length := by
  simp [batchRows]

theorem batchRows_timestamps (env : Env) (requests : List StoreRequest)
    (now : String) (row : Row) (h : row ∈ batchRows env requests now) :
    row.created_at = now ∧ row.updated_at = now := by
  unfold batchRows at h
  obtain ⟨p, _, hp⟩ := List.mem_map.mp h
  rw [← hp]
  exact ⟨rfl, rfl⟩

theorem rowCount_storeBatch (env : Env) (requests : List StoreRequest)
    (now : String) (s : StoreState) :
    rowCount (storeBatch env requests now s).2 = rowCount s + requests.length := by
  cases requests with
  | nil => simp [storeBatch]
  | cons q qs =>
    have hlen : (batchRows env (q :: qs) now).length = qs.length + 1 := by
      rw [batchRows_length]
      rfl
    cases hrows : batchRows env (q :: qs) now with
    | nil => rw [hrows] at hlen; simp at hlen
    | cons r0 rest =>
      rw [hrows] at hlen
      simp only [List.length_cons, Nat.add_right_cancel_iff] at hlen
      cases htab : s.table with
      | none =>
        cases rest with
        | nil =>
          simp [storeBatch, hrows, ensureTable, addRows, rowCount, htab,
            table_tryCreateFtsIndex, ← hlen]
        | cons r1 rs =>
          simp [storeBatch, hrows, ensureTable, addRows, rowCount, htab,
            table_tryCreateFtsIndex, ← hlen]
      | some rows =>
        simp [storeBatch, hrows, ensureTable, addRows, rowCount, htab, ← hlen]

theorem storeBatch_fst (env : Env) (requests : List StoreRequest)
    (now : String) (s : StoreState) :
    (storeBatch env requests now s).1 = (batchRows env requests now).map rowToMemory := by
  cases requests with
  | nil =>
    simp [storeBatch, batchRows]
  | cons q qs =>
    cases hrows : batchRows env (q :: qs) now with
    | nil => simp [storeBatch, hrows]
    | cons r0 rest => simp [storeBatch, hrows]

/-- A sequence of `store` calls: each call comes with its fresh id and
timestamp. -/
def storeFold (env : Env) (calls : List (StoreRequest × String × String))
    (s : StoreState) : StoreState :=
  calls.foldl (fun st c => (store env c.1 c.2.1 c.2.2 st).2) s

theorem rowCount_storeFold (env : Env) (calls : List (StoreRequest × String × String))
    (s : StoreState) :
    rowCount (storeFold env calls s) = rowCount s + calls.length := by
  induction calls generalizing s with
  | nil => simp [storeFold]
  | cons c cs ih =>
    have h1 : storeFold env (c :: cs) s = storeFold env cs (store env c.1 c.2.1 c.2.2 s).2 := rfl
    rw [h1, ih, rowCount_store, List.length_cons]
    omega

theorem isEvergreen_iff (row : Row) :
    isEvergreen row = true ↔ ("evergreen" ∈ row.tags ∨ "never-forget" ∈ row.tags) := by
  simp [isEvergreen, EVERGREEN_TAGS, List.any_eq_true]
  aesop

-- ── Concrete fixtures for witnesses and counterexamples ──

/-- A concrete environment: every collaborator is a trivial function. -/
def testEnv : Env :=
  { embed := fun _ => [1]
    embedBatch := fun ts => ts.map (fun _ => [1])
    uuid := fun n => toString n
    vecQuery := fun _ _ _ => []
    hybridQuery := fun _ _ _ _ => .error ()
    ftsQuery := fun _ _ _ => .error ()
    ftsIndexOk := true
    halfLife := 30
    decay := fun _ => 1 }

/-- The state of a fresh store before any write: no table yet. -/
def emptyState : StoreState :=
  { table := none, ftsIndexCreated := false, rerankerSet := true }

/-- A concrete store request. -/
def reqA : StoreRequest :=
  { content := "alpha", category := "learning", tags := [] }

/-- A concrete stored row. -/
def rowA : Row :=
  { id := "m1", content := "alpha", category := "learning", tags := []
    created_at := "2024-01-01T00:00:00Z", updated_at := "2024-01-01T00:00:00Z"
    vector := [1] }

/-- A state whose table holds exactly `rowA`. -/
def oneRowState : StoreState :=
  { table := some [rowA], ftsIndexCreated := true, rerankerSet := true }

/-- Like `oneRowState` but with no full-text index. -/
def noFtsState : StoreState :=
  { table := some [rowA], ftsIndexCreated := false, rerankerSet := true }

/-- A result row carrying a raw cosine distance. -/
def rowD : Row :=
  { rowA with distance := some 3 }

/-- An evergreen-tagged result row with a reranker relevance score. -/
def rowE : Row :=
  { rowA with tags := ["evergreen"], relevanceScore := some 7 }

/-- An environment whose embedder distinguishes the empty content. -/
def bugEnv : Env :=
  { testEnv with embed := fun c => if c.isEmpty then [2] else [1] }

-- ── The claims ──

/-- C1: starting from a store with no table, every sequence of N
successful `store` calls (N ≥ 1) leaves `stats().totalMemories = N`:
the first call seeds the table with its row and does not insert it a
second time, every later call inserts exactly one row. Quantified over
every environment and every id/timestamp supply. -/
theorem store_sequence_stats_count (env : Env)
    (calls : List (StoreRequest × String × String)) (s : StoreState)
    (hs : s.table = none) (_hn : 1 ≤ calls.length) :
    (stats (storeFold env calls s)).totalMemories = calls.length := by
  rw [stats_totalMemories, rowCount_storeFold]
  simp [rowCount, hs]

/-- C1 witness: one concrete `store` call from the empty store yields
`totalMemories = 1`. -/
theorem store_sequence_stats_count_witness :
    emptyState.table = none ∧ 1 ≤ ([(reqA, "id1", "T1")] :
      List (StoreRequest × String × String)).length ∧
    (stats (storeFold testEnv [(reqA, "id1", "T1")] emptyState)).totalMemories = 1 :=
  ⟨rfl, by decide,
    store_sequence_stats_count testEnv [(reqA, "id1", "T1")] emptyState rfl (by decide)⟩

/-- C2: `computeDecayFactor` is 1 when `halfLifeDays ≤ 0`, otherwise
equals `0.5 ^ (max 0 ((now − updatedAt) / 1 day) / halfLifeDays)`; it
never exceeds 1, and a future-dated `updatedAt` (age ≤ 0) yields
exactly 1, never a boost. -/
theorem computeDecayFactor_spec (nowMs updatedAtMs halfLifeDays : ℝ) :
    (halfLifeDays ≤ 0 → computeDecayFactor nowMs updatedAtMs halfLifeDays = 1) ∧
    (0 < halfLifeDays → computeDecayFactor nowMs updatedAtMs halfLifeDays
      = ((1 : ℝ) / 2) ^ (max 0 ((nowMs - updatedAtMs) / MS_PER_DAY) / halfLifeDays)) ∧
    computeDecayFactor nowMs updatedAtMs halfLifeDays ≤ 1 ∧
    (nowMs - updatedAtMs ≤ 0 → computeDecayFactor nowMs updatedAtMs halfLifeDays = 1) := by
  have hms : (0 : ℝ) < MS_PER_DAY := by norm_num [MS_PER_DAY]
  refine ⟨?_, ?_, ?_, ?_⟩
  · intro h
    simp [computeDecayFactor, h]
  · intro h
    simp [computeDecayFactor, not_le.mpr h]
  · by_cases h : halfLifeDays ≤ 0
    · simp [computeDecayFactor, h]
    · push_neg at h
      simp only [computeDecayFactor, if_neg (not_le.mpr h)]
      exact Real.rpow_le_one (by norm_num) (by norm_num)
        (div_nonneg (le_max_left 0 _) h.le)
  · intro h
    by_cases hhl : halfLifeDays ≤ 0
    · simp [computeDecayFactor, hhl]
    · push_neg at hhl
      have hage : max 0 ((nowMs - updatedAtMs) / MS_PER_DAY) = 0 :=
        max_eq_left (div_nonpos_of_nonpos_of_nonneg h hms.le)
      simp [computeDecayFactor, if_neg (not_le.mpr hhl), hage, Real.rpow_zero]

/-- C2 witness: a future-dated timestamp (now = 0, updatedAt = 5) with
half-life 30 gives factor 1, and a disabled half-life gives factor 1. -/
theorem computeDecayFactor_spec_witness :
    computeDecayFactor 0 5 30 = 1 ∧ computeDecayFactor 0 0 0 = 1 :=
  ⟨(computeDecayFactor_spec 0 5 30).2.2.2 (by norm_num),
    (computeDecayFactor_spec 0 0 0).1 le_rfl⟩

/-- C3: whenever the full-text index is unavailable (index flag down or
reranker unset) or the combined vector+full-text query fails, hybrid
mode returns exactly the semantic-mode result for the same query,
filters and limit. Both sides are total functions of the model, so the
fallback never throws. -/
theorem hybrid_falls_back_to_semantic (env : Env) (s : StoreState)
    (query : String) (filters : SearchFilters)
    (h : s.ftsIndexCreated = false ∨ s.rerankerSet = false ∨
      ∃ e, env.hybridQuery (env.embed query) query (filters.limit.getD 10 * 3)
        (buildWhereClause filters) = .error e) :
    search env s query .hybrid filters = search env s query .semantic filters := by
  cases htab : s.table with
  | none => simp [search, htab]
  | some rows =>
    simp only [search, htab]
    unfold hybridSearch
    rcases h with h | h | ⟨e, he⟩
    · simp [h]
    · simp [h]
    · by_cases h1 : s.ftsIndexCreated
      · by_cases h2 : s.rerankerSet
        · simp [h1, h2, he]
        · simp [h2]
      · simp [h1]

/-- C3 witness: on a table without a full-text index, hybrid search
coincides with semantic search. -/
theorem hybrid_falls_back_to_semantic_witness :
    noFtsState.ftsIndexCreated = false ∧
    search testEnv noFtsState "hybrid search" .hybrid {}
      = search testEnv noFtsState "hybrid search" .semantic {} :=
  ⟨rfl, hybrid_falls_back_to_semantic testEnv noFtsState "hybrid search" {} (Or.inl rfl)⟩

/-- C4 counterexample: the claim says `findRelated` fails with NotFound
whenever the id does not resolve, including when no table exists yet —
but on a store with no table it returns `ok []` for any id, an empty
success, not an error. -/
theorem findRelated_no_table_counterexample :
    findRelated testEnv "missing" 5 emptyState = .ok [] := rfl

/-- C4 (amended): with no table `findRelated` returns the empty list;
with a table it fails with NotFound exactly when the id does not
resolve to a row; on success the result never contains the target id
and has at most `limit` entries. -/
theorem findRelated_spec (env : Env) (id : String) (limit : ℕ) (s : StoreState) :
    (s.table = none → findRelated env id limit s = .ok []) ∧
    (∀ rows, s.table = some rows →
      (findRelated env id limit s = .error (.notFound id) ↔
        rows.find? (fun r => r.id == id) = none)) ∧
    (∀ res, findRelated env id limit s = .ok res →
      res.length ≤ limit ∧ ∀ r ∈ res, r.memory.id ≠ id) := by
  refine ⟨?_, ?_, ?_⟩
  · intro h
    simp [findRelated, h]
  · intro rows h
    simp only [findRelated, h]
    cases hf : rows.find? (fun r => r.id == id) with
    | none => simp
    | some orig => simp
  · intro res h
    cases htab : s.table with
    | none =>
      simp only [findRelated, htab] at h
      obtain rfl : ([] : List SearchResult) = res := by injection h
      simp
    | some rows =>
      simp only [findRelated, htab] at h
      cases hf : rows.find? (fun r => r.id == id) with
      | none =>
        simp only [hf] at h
        exact absurd h (by simp)
      | some orig =>
        simp only [hf] at h
        obtain rfl : toResults env.halfLife env.decay
            ((env.vecQuery orig.vector (limit + 1) none).filter
              (fun r => !(r.id == id))) limit = res := by injection h
        refine ⟨length_toResults_le _ _ _ _, ?_⟩
        intro r hr
        obtain ⟨row, hrow, hr'⟩ := mem_toResults _ _ _ _ r hr
        have hid : ¬(row.id == id) = true := by
          have := List.of_mem_filter hrow
          simpa using this
        subst hr'
        simpa [resultToSearchResult, rowToMemory] using fun hcontra =>
          hid (by simp [hcontra])

/-- C4 witness: on a one-row table, an unknown id fails with NotFound. -/
theorem findRelated_spec_witness :
    findRelated testEnv "zz" 5 oneRowState = .error (.notFound "zz") :=
  ((findRelated_spec testEnv "zz" 5 oneRowState).2.1 [rowA] rfl).mpr (by decide)

/-- C5 (code bug): `update(id, {content: ""})` on a row with content
"old" changes the stored content to the empty string but keeps the old
embedding vector `[1]`, although the embedder maps the new content to
`[2]`: the source re-embeds only when `updates.content` is truthy, and
the empty string is falsy in JavaScript, so a provided-and-changed
content skips re-embedding, contrary to the spec (re-embed iff content
changed) and to the tool's own description ("New content (triggers
re-embedding)"). -/
theorem update_empty_content_keeps_stale_vector :
    (update bugEnv "m1" { content := some "" } "T2"
        { table := some [{ rowA with content := "old" }], ftsIndexCreated := true,
          rerankerSet := true }).map
      (fun p => (p.1.content, (p.2.table.getD []).map Row.vector)) = .ok ("", [[1]]) ∧
    bugEnv.embed "" = [2] :=
  ⟨rfl, rfl⟩

/-- C6: keyword-mode search never raises: whenever the full-text query
fails for any reason (in particular when the index is absent, the case
the source comments), the caller receives the empty list. The model's
`search` is total, so no other outcome can escape. -/
theorem keyword_search_degrades (env : Env) (s : StoreState) (query : String)
    (filters : SearchFilters) (e : Unit)
    (h : env.ftsQuery query (filters.limit.getD 10 * 3) (buildWhereClause filters)
      = .error e) :
    search env s query .keyword filters = [] := by
  cases htab : s.table with
  | none => simp [search, htab]
  | some rows => simp [search, htab, keywordSearch, h]

/-- C6 witness: with an environment whose full-text query always fails,
keyword search on a one-row table returns the empty list. -/
theorem keyword_search_degrades_witness :
    search testEnv oneRowState "alpha" .keyword {} = [] :=
  keyword_search_degrades testEnv oneRowState "alpha" {} () rfl

/-- C7: `storeBatch` of N requests embeds all contents in one batch
call (visible in `batchRows`, which applies `embedBatch` once to the
whole content list), stamps every produced memory with the single
shared timestamp as both `createdAt` and `updatedAt`, and grows
`stats().totalMemories` by exactly N from any prior state — seeding the
table with the first row when none exists and bulk-inserting the rest,
or inserting all N rows otherwise. -/
theorem storeBatch_spec (env : Env) (requests : List StoreRequest)
    (now : String) (s : StoreState) :
    (stats (storeBatch env requests now s).2).totalMemories
      = (stats s).totalMemories + requests.length ∧
    (storeBatch env requests now s).1.length = requests.length ∧
    (storeBatch env requests now s).1.all
      (fun m => m.createdAt == now && m.updatedAt == now) = true := by
  refine ⟨?_, ?_, ?_⟩
  · rw [stats_totalMemories, stats_totalMemories, rowCount_storeBatch]
  · rw [storeBatch_fst, List.length_map, batchRows_length]
  · rw [storeBatch_fst, List.all_eq_true]
    intro m hm
    obtain ⟨row, hrow, hmem⟩ := List.mem_map.mp hm
    obtain ⟨h1, h2⟩ := batchRows_timestamps env requests now row hrow
    rw [← hmem]
    simp [rowToMemory, h1, h2]

/-- C8: the raw score of a result row is interpreted with a fixed
priority — a native fusion relevance score first; else the similarity
`1 / (1 + d)` of a present distance `d`, which lies in (0, 1] whenever
`d ≥ 0`; else a raw keyword score as-is; else 0. All search paths read
their rows through this one function (`rawScore` inside
`resultToSearchResult`, used by `toResults` for every mode). -/
theorem rawScore_priority (row : Row) (r d f : ℚ) :
    (row.relevanceScore = some r → rawScore row = r) ∧
    (row.relevanceScore = none → row.distance = some d →
      rawScore row = 1 / (1 + d) ∧ (0 ≤ d → 0 < 1 / (1 + d) ∧ 1 / (1 + d) ≤ 1)) ∧
    (row.relevanceScore = none → row.distance = none → row.ftsScore = some f →
      rawScore row = f) ∧
    (row.relevanceScore = none → row.distance = none → row.ftsScore = none →
      rawScore row = 0) := by
  refine ⟨?_, ?_, ?_, ?_⟩
  · intro h1
    simp [rawScore, h1]
  · intro h1 h2
    constructor
    · simp [rawScore, h1, h2]
    · intro hd
      have hpos : (0 : ℚ) < 1 + d := by linarith
      exact ⟨div_pos one_pos hpos, (div_le_one hpos).mpr (by linarith)⟩
  · intro h1 h2 h3
    simp [rawScore, h1, h2, h3]
  · intro h1 h2 h3
    simp [rawScore, h1, h2, h3]

/-- C8 witness: a row with only a distance of 3 scores 1 / (1 + 3),
and that similarity is positive and at most 1. -/
theorem rawScore_priority_witness :
    rawScore rowD = 1 / (1 + 3) ∧ (0 < 1 / (1 + (3 : ℚ)) ∧ 1 / (1 + (3 : ℚ)) ≤ 1) :=
  ⟨((rawScore_priority rowD 0 3 0).2.1 rfl rfl).1,
    ((rawScore_priority rowD 0 3 0).2.1 rfl rfl).2 (by norm_num)⟩

/-- C9: a result whose memory carries an `evergreen` or `never-forget`
tag keeps its raw mode-specific score untouched by decay, for every
decay oracle and thus regardless of age; any other result's final score
is the raw score times the decay factor (which the source reads as 1
when the half-life is nonpositive, decay disabled). -/
theorem evergreen_skips_decay (halfLife : ℚ) (decay : String → ℚ) (row : Row) :
    (("evergreen" ∈ (rowToMemory row).tags ∨ "never-forget" ∈ (rowToMemory row).tags) →
      (resultToSearchResult halfLife decay row).score = rawScore row) ∧
    (¬("evergreen" ∈ (rowToMemory row).tags ∨ "never-forget" ∈ (rowToMemory row).tags) →
      (resultToSearchResult halfLife decay row).score
        = rawScore row * (if halfLife ≤ 0 then 1 else decay row.updated_at)) := by
  have htags : (rowToMemory row).tags = row.tags := rfl
  constructor
  · intro h
    rw [htags] at h
    have he : isEvergreen row = true := (isEvergreen_iff row).mpr h
    simp [resultToSearchResult, he]
  · intro h
    rw [htags] at h
    have he : isEvergreen row = false := by
      cases hev : isEvergreen row with
      | false => rfl
      | true => exact absurd ((isEvergreen_iff row).mp hev) h
    by_cases hl : 0 < halfLife
    · simp [resultToSearchResult, he, hl, if_neg (not_le.mpr hl)]
    · have hl2 : halfLife ≤ 0 := not_lt.mp hl
      simp [resultToSearchResult, he, hl, if_pos hl2]

/-- C9 witness: an evergreen-tagged row with relevance score 7 keeps
score 7 under a decay oracle that would otherwise zero it out. -/
theorem evergreen_skips_decay_witness :
    (resultToSearchResult 30 (fun _ => 0) rowE).score = rawScore rowE :=
  (evergreen_skips_decay 30 (fun _ => 0) rowE).1 (Or.inl (by decide))

/-- C10: before any memory has been stored (no table), `update` and
`delete` throw the no-memories-yet error for every id — an error
distinct from NotFound — while reads return empty results: `search`
yields `[]` for every mode and filters, and `listRecent` yields `[]`. -/
theorem mutations_require_table (env : Env) (id : String) (u : UpdateRequest)
    (now : String) (s : StoreState) (limit : ℕ) (category : Option String)
    (query : String) (mode : SearchMode) (filters : SearchFilters)
    (hs : s.table = none) :
    update env id u now s = .error .noMemoriesYet ∧
    deleteById id s = .error .noMemoriesYet ∧
    (StoreError.noMemoriesYet ≠ StoreError.notFound id) ∧
    search env s query mode filters = [] ∧
    listRecent limit category s = [] := by
  refine ⟨?_, ?_, ?_, ?_, ?_⟩
  · simp [update, hs]
  · simp [deleteById, hs]
  · simp
  · simp [search, hs]
  · simp [listRecent, hs]

/-- C10 witness: on the fresh empty store, a concrete update and delete
both fail with the no-memories-yet error and reads come back empty. -/
theorem mutations_require_table_witness :
    update testEnv "m1" { content := some "beta" } "T2" emptyState
      = .error .noMemoriesYet ∧
    deleteById "m1" emptyState = .error .noMemoriesYet ∧
    search testEnv emptyState "alpha" .hybrid {} = [] ∧
    listRecent 10 none emptyState = [] := by
  have h := mutations_require_table testEnv "m1" { content := some "beta" } "T2"
    emptyState 10 none "alpha" .hybrid {} rfl
  exact ⟨h.1, h.2.1, h.2.2.2.1, h.2.2.2.2⟩

end AgentMemory
